import Mathlib

/-!
Shallow embedding of the bingo server in `src/server.ts`.

The repository's single source file contains two variants of the server,
separated by a document separator:
  * variant A (the "most complete" variant, lines 1-848): settings carry
    `maxNumbers`; `handleAdminCallNumber` bounds its draw loop by an
    `attempts` counter; `handleAdminCallSpecific` range-checks its argument;
    `handleAdminResetGame` clears the active flag; `handleClaimBingo` does
    not touch the claimant's marks.
  * variant B (the earlier variant, lines 849-1562): no `maxNumbers`
    setting; the draw loop is unbounded; `handleAdminCallSpecific` only
    rejects duplicates; `handleAdminResetGame` leaves the active flag
    alone; `handleClaimBingo` clears the claimant's marks on success.

Variant A lives in namespace `Bingo`; the handlers of variant B that the
claims cite live in namespace `Bingo.VariantB`.

Modelling conventions:
  * JS numbers are embedded as `ℚ` (stakes, fees) or `ℤ`/`ℕ` (called
    numbers, counts); `Math.floor` is `Int.floor` on `ℚ`.
  * `Math.random()` is an oracle `o : ℕ → ℕ` consumed at increasing
    indices; `Math.floor(Math.random() * k)` at index `i` becomes
    `o i % k`, which reproduces the guarantee that the draw is in `0..k-1`.
  * JS `while` loops whose termination depends on randomness are given an
    explicit fuel parameter and return `Option`/a dedicated outcome type;
    fuel exhaustion models "still looping".
  * JS `Map` is an association list with first-key-wins lookup, `Set` an
    insertion-ordered duplicate-free list.
  * `Date` timestamps and the WebSocket transport layer are not modelled;
    sockets are abstract connection ids `ℕ`; outbound traffic is a list of
    `Event`s returned next to the new state.
-/

namespace Bingo

/-! ## Association-list and set helpers (JS `Map` / `Set`) -/

/-- Lookup in a JS `Map` modelled as an association list (first key wins). -/
def assocGet {κ α : Type} [DecidableEq κ] (k : κ) : List (κ × α) → Option α
  | [] => none
  | (k', v) :: rest => if k' = k then some v else assocGet k rest

/-- Model of `Map.set`: replace the binding of `k` if present, else append it. -/
def assocSet {κ α : Type} [DecidableEq κ] (k : κ) (v : α) : List (κ × α) → List (κ × α)
  | [] => [(k, v)]
  | (k', v') :: rest => if k' = k then (k, v) :: rest else (k', v') :: assocSet k v rest

/-- In-place mutation of the value stored under `k` (JS object mutation). -/
def assocUpdate {κ α : Type} [DecidableEq κ] (k : κ) (f : α → α) : List (κ × α) → List (κ × α)
  | [] => []
  | (k', v) :: rest => if k' = k then (k', f v) :: rest else (k', v) :: assocUpdate k f rest

/-- The values of a JS `Map`, in insertion order. -/
def assocValues {κ α : Type} (l : List (κ × α)) : List α := l.map Prod.snd

/-- Model of `Set.add`: append the element unless it is already present. -/
def listAdd {α : Type} [DecidableEq α] (x : α) (s : List α) : List α :=
  if x ∈ s then s else s ++ [x]

/-- Model of `Set.delete`. -/
def listRemove {α : Type} [DecidableEq α] (x : α) (s : List α) : List α :=
  s.filter (fun y => y ≠ x)

/-! ## Data model -/

/-- The value a board cell displays: a playable number, the FREE sentinel of
the 75-ball center cell, or a blank/null slot (90-ball empty positions). -/
inductive CellVal : Type
  | num (n : ℕ)
  | free
  | empty
deriving DecidableEq, Repr

/-- A board cell as built by the generators (`letter` for 75-ball columns,
`column` for 90-ball columns; generators that omit a field leave the
default). -/
structure Cell where
  val : CellVal
  letter : Option String := none
  column : Option ℕ := none
  marked : Bool := false
  row : ℕ := 0
  col : ℕ := 0
deriving DecidableEq, Repr

/-- A generated board: a row-major grid of cells plus the variant tag and,
for the pattern variant, the attached pattern tag. A JS `null` grid slot is
modelled as a cell whose `val` is `CellVal.empty`. -/
structure Board where
  btype : String
  rows : List (List Cell)
  pattern : Option String := none
deriving DecidableEq, Repr

/-- The default cell standing for a JS `null` grid slot. -/
def nullCell : Cell := { val := CellVal.empty }

/-- Cell of `b` at row `r`, column `c` (null slot if out of bounds). -/
def cellAt (b : Board) (r c : ℕ) : Cell := (b.rows.getD r []).getD c nullCell

structure Player where
  id : String
  name : String
  stake : ℚ
  boardType : String
  board : Option Board
  markedNumbers : List ℕ
  socket : ℕ
  connected : Bool
deriving DecidableEq

structure Winner where
  playerId : String
  playerName : String
  pattern : String
  prize : ℤ
deriving DecidableEq

structure Settings where
  serviceFee : ℚ
  winPercentage : ℚ
  callInterval : ℚ
  gameType : String
  maxNumbers : ℕ
deriving DecidableEq

inductive ConnInfo : Type
  | admin
  | player (pid : String)
deriving DecidableEq

/-- The full mutable state of variant A's `BingoServer` (game state plus the
connection registry and the timer-id counter standing in for `setInterval`
handles). -/
structure ServerState where
  players : List (String × Player)
  calledNumbers : List ℤ
  gameActive : Bool
  winners : List Winner
  settings : Settings
  adminConnections : List ℕ
  autoCallIntervalId : Option ℕ
  connections : List (ℕ × ConnInfo)
  nextTimerId : ℕ
deriving DecidableEq

/-- The constructor's initial state. -/
def initialState : ServerState :=
  { players := []
    calledNumbers := []
    gameActive := false
    winners := []
    settings :=
      { serviceFee := 3
        winPercentage := 80
        callInterval := 7
        gameType := "75ball"
        maxNumbers := 75 }
    adminConnections := []
    autoCallIntervalId := none
    connections := []
    nextTimerId := 0 }

/-! ## Outbound events -/

inductive Msg : Type
  | gameStateMsg
  | boardMsg (b : Option Board)
  | playerJoinedMsg (pid : String)
  | playerLeftMsg (pid : String)
  | winnerAnnouncedMsg (w : Winner)
  | numberCalledMsg (n : ℤ)
deriving DecidableEq

inductive Event : Type
  | toSocket (conn : ℕ) (m : Msg)
  | broadcastEvt (m : Msg) (exclude : List ℕ)
  | errorEvt (conn : ℕ) (msg : String)
  | adminsUpdate
deriving DecidableEq

/-! ## Board generation (variant A)

Each generator takes the randomness oracle `o` and a fuel bound for the
duplicate-rejection `while` loops; the oracle index is threaded through the
draws in source order. -/

/-- The loop `while (set.size < target) set.add(min + floor(random * (hi - lo + 1)))`:
collect draws into an insertion-ordered set until it has `target` elements,
returning the set and the next oracle index (or `none` on fuel exhaustion). -/
def fillSet (o : ℕ → ℕ) (lo hi target : ℕ) : ℕ → ℕ → List ℕ → Option (List ℕ × ℕ)
  | 0, i, acc => if target ≤ acc.length then some (acc, i) else none
  | fuel + 1, i, acc =>
    if target ≤ acc.length then some (acc, i)
    else fillSet o lo hi target fuel (i + 1) (listAdd (lo + o i % (hi - lo + 1)) acc)

/-- Model of `Array.from(set).sort((a, b) => a - b)`. -/
def sortAsc (l : List ℕ) : List ℕ := List.insertionSort (· ≤ ·) l

/-- Draw one sorted duplicate-free sample of size `target` from each range in
`ranges`, threading the oracle index left to right. -/
def genColumns (o : ℕ → ℕ) (fuel target : ℕ) :
    ℕ → List (ℕ × ℕ) → Option (List (List ℕ) × ℕ)
  | i, [] => some ([], i)
  | i, (lo, hi) :: rest =>
    match fillSet o lo hi target fuel i [] with
    | none => none
    | some (nums, i') =>
      match genColumns o fuel target i' rest with
      | none => none
      | some (cols, i'') => some (sortAsc nums :: cols, i'')

def colRanges75 : List (ℕ × ℕ) := [(1, 15), (16, 30), (31, 45), (46, 60), (61, 75)]

def letters75 : List String := ["B", "I", "N", "G", "O"]

/-- One cell of the 75-ball board: sorted column numbers by row, with the
center cell forced to the pre-marked FREE sentinel. -/
def mkCell75 (cols : List (List ℕ)) (r c : ℕ) : Cell :=
  { val := if r = 2 ∧ c = 2 then CellVal.free else CellVal.num ((cols.getD c []).getD r 0)
    letter := some (letters75.getD c "B")
    marked := decide (r = 2 ∧ c = 2)
    row := r
    col := c }

/-- Body of `generate75BallBoard`, also returning the next oracle index (used by the
pattern variant, which draws its pattern tag after the board). -/
def generate75BallBoardAux (o : ℕ → ℕ) (fuel : ℕ) : Option (Board × ℕ) :=
  match genColumns o fuel 5 0 colRanges75 with
  | none => none
  | some (cols, i) =>
    some ({ btype := "75ball"
            rows := (List.range 5).map (fun r => (List.range 5).map (fun c => mkCell75 cols r c)) },
          i)

def generate75BallBoard (o : ℕ → ℕ) (fuel : ℕ) : Option Board :=
  (generate75BallBoardAux o fuel).map Prod.fst

def ranges90 : List (ℕ × ℕ) :=
  [(1, 10), (11, 20), (21, 30), (31, 40), (41, 50), (51, 60), (61, 70), (71, 80), (81, 90)]

/-- One cell of variant A's 90-ball board. The source assigns
`sortedNumbers[row]` for `row < sortedNumbers.length` and a blank cell
otherwise; since the column always draws exactly 3 numbers the blank branch
is dead, but it is kept as written. -/
def mkCell90 (cols : List (List ℕ)) (r c : ℕ) : Cell :=
  if r < (cols.getD c []).length then
    { val := CellVal.num ((cols.getD c []).getD r 0)
      column := some (c + 1)
      marked := false
      row := r
      col := c }
  else
    { val := CellVal.empty
      column := some (c + 1)
      marked := false
      row := r
      col := c }

/-- Variant A's `generate90BallBoard`: every column draws exactly 3 distinct
numbers from its decade range and writes them into rows 0,1,2 in ascending
order. -/
def generate90BallBoard (o : ℕ → ℕ) (fuel : ℕ) : Option Board :=
  match genColumns o fuel 3 0 ranges90 with
  | none => none
  | some (cols, _) =>
    some { btype := "90ball"
           rows := (List.range 3).map (fun r => (List.range 9).map (fun c => mkCell90 cols r c)) }

/-- Model of `generate30BallBoard`: nine distinct numbers from 1..30 in a 3×3 grid. -/
def generate30BallBoard (o : ℕ → ℕ) (fuel : ℕ) : Option Board :=
  match fillSet o 1 30 9 fuel 0 [] with
  | none => none
  | some (nums, _) =>
    let sorted := sortAsc nums
    some { btype := "30ball"
           rows := (List.range 3).map (fun i =>
             (List.range 3).map (fun j =>
               { val := CellVal.num (sorted.getD (i * 3 + j) 0)
                 marked := false
                 row := i
                 col := j })) }

/-- One Fisher-Yates pass: `for (i = len-1; i > 0; i--) swap(i, floor(random*(i+1)))`.
The first argument is the current position `i`. -/
def fisherYates (o : ℕ → ℕ) : ℕ → ℕ → List ℕ → List ℕ
  | 0, _, l => l
  | i + 1, idx, l =>
    let j := o idx % (i + 2)
    fisherYates o i (idx + 1) ((l.set (i + 1) (l.getD j 0)).set j (l.getD (i + 1) 0))

def shuffleArray (o : ℕ → ℕ) (idx : ℕ) (l : List ℕ) : List ℕ :=
  fisherYates o (l.length - 1) idx l

/-- Model of `generateCoverallBoard`: the first 45 numbers of a shuffled 1..90 in a
5×9 grid. -/
def generateCoverallBoard (o : ℕ → ℕ) (_fuel : ℕ) : Option Board :=
  let selected := (shuffleArray o 0 ((List.range 90).map (· + 1))).take 45
  some { btype := "coverall"
         rows := (List.range 5).map (fun i =>
           (List.range 9).map (fun j =>
             { val := CellVal.num (selected.getD (i * 9 + j) 0)
               marked := false
               row := i
               col := j })) }

def patternList : List String := ["x-pattern", "frame", "postage-stamp", "small-diamond"]

def getRandomPattern (draw : ℕ) : String := patternList.getD (draw % 4) "x-pattern"

/-- Fuel given to the generator loops when invoked from the command handlers
(a modelling artifact standing for "the rejection sampling finished"). -/
def genFuel : ℕ := 64

/-- Model of `generateBoard`: dispatch on the variant tag, with the deliberate
cross-cutting side effect on `settings.maxNumbers` for the 90ball/30ball/
coverall variants. -/
def generateBoard (bt : String) (o : ℕ → ℕ) (st : Settings) : Option Board × Settings :=
  if bt = "75ball" then (generate75BallBoard o genFuel, st)
  else if bt = "90ball" then (generate90BallBoard o genFuel, { st with maxNumbers := 90 })
  else if bt = "30ball" then (generate30BallBoard o genFuel, { st with maxNumbers := 30 })
  else if bt = "pattern" then
    (match generate75BallBoardAux o genFuel with
     | none => none
     | some (b, i) => some { b with pattern := some (getRandomPattern (o i)) },
     st)
  else if bt = "coverall" then (generateCoverallBoard o genFuel, { st with maxNumbers := 90 })
  else (generate75BallBoard o genFuel, st)

/-! ## Variant A command handlers -/

/-- Payload of a `markNumber` message: a number, the string `'FREE'`, or a
missing/falsy field. -/
inductive MarkPayload : Type
  | markNum (n : ℕ)
  | markFree
  | markNone
deriving DecidableEq

/-- Patch object of an `adminUpdateSettings` message (object spread: present
fields overwrite). -/
structure SettingsPatch where
  serviceFee : Option ℚ := none
  winPercentage : Option ℚ := none
  callInterval : Option ℚ := none
  gameType : Option String := none
  maxNumbers : Option ℕ := none
deriving DecidableEq

def mergeSettings (st : Settings) (p : SettingsPatch) : Settings :=
  { serviceFee := p.serviceFee.getD st.serviceFee
    winPercentage := p.winPercentage.getD st.winPercentage
    callInterval := p.callInterval.getD st.callInterval
    gameType := p.gameType.getD st.gameType
    maxNumbers := p.maxNumbers.getD st.maxNumbers }

def sendErrorEvt (conn : ℕ) (msg : String) : List Event := [Event.errorEvt conn msg]

def handleSetAdmin (s : ServerState) (conn : ℕ) : ServerState × List Event :=
  ({ s with adminConnections := listAdd conn s.adminConnections
            connections := assocSet conn ConnInfo.admin s.connections },
   [Event.toSocket conn Msg.gameStateMsg])

/-- Model of `handleJoinGame`. `genId` stands for the freshly generated
`player_<timestamp>_<random>` fallback id; `o` is the board-generation
oracle. JS `||` defaults: a missing (or zero, for the stake) field falls
back to the default. -/
def handleJoinGame (s : ServerState) (conn : ℕ) (pid : Option String) (name : String)
    (stake : Option ℚ) (bt : Option String) (genId : String) (o : ℕ → ℕ) :
    ServerState × List Event :=
  let boardType := bt.getD "75ball"
  let (board, settings') := generateBoard boardType o s.settings
  let player : Player :=
    { id := pid.getD genId
      name := name
      stake := match stake with
        | some st => if st = 0 then 25 else st
        | none => 25
      boardType := boardType
      board := board
      markedNumbers := []
      socket := conn
      connected := true }
  ({ s with settings := settings'
            players := assocSet player.id player s.players
            connections := assocSet conn (ConnInfo.player player.id) s.connections },
   [Event.toSocket conn (Msg.boardMsg board), Event.toSocket conn Msg.gameStateMsg,
    Event.broadcastEvt (Msg.playerJoinedMsg player.id) [conn], Event.adminsUpdate])

def handleMarkNumber (s : ServerState) (conn : ℕ) (payload : MarkPayload) :
    ServerState × List Event :=
  match assocGet conn s.connections with
  | some (ConnInfo.player pid) =>
    match assocGet pid s.players with
    | some _ =>
      match payload with
      | MarkPayload.markNum n =>
        if n ≠ 0 then
          let players' :=
            assocUpdate pid (fun p => { p with markedNumbers := listAdd n p.markedNumbers })
              s.players
          ({ s with players := players' }, [])
        else (s, [])
      | _ => (s, [])
    | none => (s, [])
  | _ => (s, [])

/-- Model of `verifyBingo` (variant A): acceptance depends only on the marked-number
count against a per-pattern threshold. -/
def verifyBingo (player : Player) (pattern : String) : Bool :=
  let markedCount := player.markedNumbers.length
  if pattern = "full-house" then decide (24 ≤ markedCount)
  else if pattern = "row" ∨ pattern = "column" ∨ pattern = "diagonal" then
    decide (5 ≤ markedCount)
  else if pattern = "four-corners" then decide (4 ≤ markedCount)
  else if pattern = "one-line" then decide (5 ≤ markedCount)
  else if pattern = "two-lines" then decide (10 ≤ markedCount)
  else if pattern = "full-board" then decide (45 ≤ markedCount)
  else if pattern = "x-pattern" ∨ pattern = "frame" ∨ pattern = "postage-stamp" ∨
      pattern = "small-diamond" then decide (5 ≤ markedCount)
  else decide (5 ≤ markedCount)

def stakeSum (l : List Player) : ℚ := (l.map Player.stake).sum

/-- Model of `calculatePrize` (variant A): the pool sums the stakes of every player
in the map, connected or not; the `stake` argument is unused, as in the
source. -/
def calculatePrize (s : ServerState) (stake : ℚ) : ℤ :=
  let totalStakes := stakeSum (assocValues s.players)
  let prizePool := totalStakes * (s.settings.winPercentage / 100)
  let afterFee := prizePool * ((100 - s.settings.serviceFee) / 100)
  ⌊afterFee / (max s.players.length 1 : ℚ)⌋

/-- Model of `handleClaimBingo` (variant A): on a verified claim append one Winner
and broadcast it; on a rejected claim send an error to the claimant and
change nothing. The claimant's marks are not touched in either case. -/
def handleClaimBingo (s : ServerState) (conn : ℕ) (pattern : String) :
    ServerState × List Event :=
  match assocGet conn s.connections with
  | some (ConnInfo.player pid) =>
    match assocGet pid s.players with
    | some player =>
      if verifyBingo player pattern then
        let prize := calculatePrize s player.stake
        let w : Winner :=
          { playerId := player.id, playerName := player.name, pattern := pattern, prize := prize }
        ({ s with winners := s.winners ++ [w] },
         [Event.broadcastEvt (Msg.winnerAnnouncedMsg w) []])
      else (s, sendErrorEvt conn "Bingo claim could not be verified")
    | none => (s, [])
  | _ => (s, [])

def handleAdminStartGame (s : ServerState) (conn : ℕ) : ServerState × List Event :=
  if conn ∈ s.adminConnections then
    ({ s with gameActive := true, calledNumbers := [] },
     [Event.broadcastEvt Msg.gameStateMsg []])
  else (s, sendErrorEvt conn "Unauthorized")

def handleAdminPauseGame (s : ServerState) (conn : ℕ) : ServerState × List Event :=
  if conn ∈ s.adminConnections then
    ({ s with gameActive := false, autoCallIntervalId := none },
     [Event.broadcastEvt Msg.gameStateMsg []])
  else (s, sendErrorEvt conn "Unauthorized")

/-- Model of `handleAdminResetGame` (variant A): clear called numbers, winners, the
active flag, every player's marks, and the auto-call timer; players
themselves are kept. -/
def handleAdminResetGame (s : ServerState) (conn : ℕ) : ServerState × List Event :=
  if conn ∈ s.adminConnections then
    ({ s with calledNumbers := []
              winners := []
              gameActive := false
              players := s.players.map (fun kv => (kv.1, { kv.2 with markedNumbers := [] }))
              autoCallIntervalId := none },
     [Event.broadcastEvt Msg.gameStateMsg []])
  else (s, sendErrorEvt conn "Unauthorized")

/-- The `do { number = floor(random * maxN) + 1; attempts++; if (attempts >
maxN * 2) abort } while (called.includes(number))` loop: `rem` is the number
of draws that may still be tested (`maxN * 2` at the top-level call);
`none` is the "Unable to find unused number" abort. -/
def drawFresh (o : ℕ → ℕ) (maxN : ℕ) (called : List ℤ) : ℕ → ℕ → Option ℤ
  | _, 0 => none
  | i, rem + 1 =>
    let n : ℤ := (o i % maxN : ℕ) + 1
    if n ∈ called then drawFresh o maxN called (i + 1) rem else some n

/-- Model of `handleAdminCallNumber` (variant A): bounded rejection sampling from
`1..maxNumbers`; abandons with an error after `2 * maxNumbers` rejected
draws. -/
def handleAdminCallNumber (s : ServerState) (conn : ℕ) (o : ℕ → ℕ) :
    ServerState × List Event :=
  if conn ∈ s.adminConnections then
    if s.gameActive then
      let maxNumber := s.settings.maxNumbers
      match drawFresh o maxNumber s.calledNumbers 0 (2 * maxNumber) with
      | none => (s, sendErrorEvt conn "Unable to find unused number")
      | some n =>
        ({ s with calledNumbers := s.calledNumbers ++ [n] },
         [Event.broadcastEvt (Msg.numberCalledMsg n) []])
    else (s, sendErrorEvt conn "Game is not active")
  else (s, sendErrorEvt conn "Unauthorized")

/-- Model of `handleAdminCallSpecific` (variant A): reject a missing/falsy number, an
out-of-range number, and a duplicate, otherwise append. -/
def handleAdminCallSpecific (s : ServerState) (conn : ℕ) (number : Option ℤ) :
    ServerState × List Event :=
  if conn ∈ s.adminConnections then
    match number with
    | none => (s, sendErrorEvt conn "Invalid number")
    | some n =>
      if n < 1 ∨ (s.settings.maxNumbers : ℤ) < n then (s, sendErrorEvt conn "Invalid number")
      else if n ∈ s.calledNumbers then (s, sendErrorEvt conn "Number already called")
      else
        ({ s with calledNumbers := s.calledNumbers ++ [n] },
         [Event.broadcastEvt (Msg.numberCalledMsg n) []])
  else (s, sendErrorEvt conn "Unauthorized")

def handleAdminToggleAutoCall (s : ServerState) (conn : ℕ) (enabled : Bool) :
    ServerState × List Event :=
  if conn ∈ s.adminConnections then
    if enabled ∧ s.autoCallIntervalId = none then
      ({ s with autoCallIntervalId := some s.nextTimerId, nextTimerId := s.nextTimerId + 1 }, [])
    else if ¬enabled ∧ s.autoCallIntervalId ≠ none then
      ({ s with autoCallIntervalId := none }, [])
    else (s, [])
  else (s, sendErrorEvt conn "Unauthorized")

def handleAdminUpdateSettings (s : ServerState) (conn : ℕ) (patch : SettingsPatch) :
    ServerState × List Event :=
  if conn ∈ s.adminConnections then
    let s' := { s with settings := mergeSettings s.settings patch }
    if s'.autoCallIntervalId ≠ none then
      ({ s' with autoCallIntervalId := some s'.nextTimerId, nextTimerId := s'.nextTimerId + 1 },
       [Event.adminsUpdate])
    else (s', [Event.adminsUpdate])
  else (s, sendErrorEvt conn "Unauthorized")

def handleDisconnection (s : ServerState) (conn : ℕ) : ServerState × List Event :=
  match assocGet conn s.connections with
  | some ConnInfo.admin =>
    ({ s with adminConnections := listRemove conn s.adminConnections
              connections := s.connections.filter (fun kv => kv.1 ≠ conn) },
     [Event.adminsUpdate])
  | some (ConnInfo.player pid) =>
    match assocGet pid s.players with
    | some player =>
      ({ s with players := assocUpdate pid (fun p => { p with connected := false }) s.players
                connections := s.connections.filter (fun kv => kv.1 ≠ conn) },
       [Event.broadcastEvt (Msg.playerLeftMsg player.id) [conn], Event.adminsUpdate])
    | none =>
      ({ s with connections := s.connections.filter (fun kv => kv.1 ≠ conn) },
       [Event.adminsUpdate])
  | none => (s, [Event.adminsUpdate])

/-- Model of `calculateCurrentPot` (variant A): sums only the stakes of connected
players before applying the percentages. -/
def calculateCurrentPot (s : ServerState) : ℤ :=
  let totalStakes := stakeSum ((assocValues s.players).filter (fun p => p.connected))
  ⌊totalStakes * (s.settings.winPercentage / 100) * ((100 - s.settings.serviceFee) / 100)⌋

/-! ## The command step relation (variant A) -/

/-- An inbound message (or a connection-lifecycle/timer happening), with the
randomness its handler consumes carried alongside. -/
inductive Cmd : Type
  | setAdmin (conn : ℕ)
  | joinGame (conn : ℕ) (pid : Option String) (name : String) (stake : Option ℚ)
      (boardType : Option String) (genId : String) (o : ℕ → ℕ)
  | markNumber (conn : ℕ) (payload : MarkPayload)
  | claimBingo (conn : ℕ) (pattern : String)
  | adminStartGame (conn : ℕ)
  | adminPauseGame (conn : ℕ)
  | adminResetGame (conn : ℕ)
  | adminCallNumber (conn : ℕ) (o : ℕ → ℕ)
  | adminCallSpecific (conn : ℕ) (number : Option ℤ)
  | adminToggleAutoCall (conn : ℕ) (enabled : Bool)
  | adminUpdateSettings (conn : ℕ) (patch : SettingsPatch)
  | disconnect (conn : ℕ)
  | autoCallTick (conn : ℕ) (o : ℕ → ℕ)

/-- Dispatch of `handleMessage` plus the disconnect callback and the auto-call timer
tick (which invokes `handleAdminCallNumber` only while the game is active
and a timer is registered). -/
def handleMessage (s : ServerState) : Cmd → ServerState × List Event
  | Cmd.setAdmin conn => handleSetAdmin s conn
  | Cmd.joinGame conn pid name stake bt genId o =>
    handleJoinGame s conn pid name stake bt genId o
  | Cmd.markNumber conn payload => handleMarkNumber s conn payload
  | Cmd.claimBingo conn pattern => handleClaimBingo s conn pattern
  | Cmd.adminStartGame conn => handleAdminStartGame s conn
  | Cmd.adminPauseGame conn => handleAdminPauseGame s conn
  | Cmd.adminResetGame conn => handleAdminResetGame s conn
  | Cmd.adminCallNumber conn o => handleAdminCallNumber s conn o
  | Cmd.adminCallSpecific conn number => handleAdminCallSpecific s conn number
  | Cmd.adminToggleAutoCall conn enabled => handleAdminToggleAutoCall s conn enabled
  | Cmd.adminUpdateSettings conn patch => handleAdminUpdateSettings s conn patch
  | Cmd.disconnect conn => handleDisconnection s conn
  | Cmd.autoCallTick conn o =>
    if s.autoCallIntervalId ≠ none ∧ s.gameActive then handleAdminCallNumber s conn o
    else (s, [])

def stepState (s : ServerState) (c : Cmd) : ServerState := (handleMessage s c).1

def execList (s : ServerState) (cmds : List Cmd) : ServerState := cmds.foldl stepState s

/-- A state reachable from the freshly constructed server by some sequence
of commands. -/
def Reachable (s : ServerState) : Prop := ∃ cmds, execList initialState cmds = s

/-! ## Variant B (the earlier server after the document separator)

Only the handlers the claims cite are embedded. Variant B has no
`maxNumbers` setting (its number space is derived from `gameType`), no
connection registry (players are found by scanning for the socket), and an
unbounded draw loop. -/

namespace VariantB

structure SettingsB where
  serviceFee : ℚ
  winPercentage : ℚ
  callInterval : ℚ
  gameType : String
deriving DecidableEq

structure ServerStateB where
  players : List (String × Player)
  calledNumbers : List ℤ
  gameActive : Bool
  winners : List Winner
  settings : SettingsB
  adminSockets : List ℕ
  autoCallInterval : Option ℕ
deriving DecidableEq

/-- Model of `findPlayerBySocket`: first player (map insertion order) whose socket
is the given connection. -/
def findPlayerBySocket (s : ServerStateB) (conn : ℕ) : Option Player :=
  (assocValues s.players).find? (fun p => p.socket = conn)

/-- Model of `verifyBingo` (variant B): same count-only policy with fewer named
patterns. -/
def verifyBingo (player : Player) (pattern : String) : Bool :=
  let markedCount := player.markedNumbers.length
  if pattern = "full-house" then decide (24 ≤ markedCount)
  else if pattern = "row" ∨ pattern = "column" ∨ pattern = "diagonal" then
    decide (5 ≤ markedCount)
  else if pattern = "four-corners" then decide (4 ≤ markedCount)
  else decide (5 ≤ markedCount)

def calculatePrize (s : ServerStateB) (stake : ℚ) : ℤ :=
  let totalStakes := stakeSum (assocValues s.players)
  let prizePool := totalStakes * (s.settings.winPercentage / 100)
  let afterFee := prizePool * ((100 - s.settings.serviceFee) / 100)
  ⌊afterFee / (max s.players.length 1 : ℚ)⌋

/-- Model of `handleClaimBingo` (variant B): on a verified claim append one Winner,
broadcast it, and clear the claimant's marked numbers; on a rejected claim
send an error. -/
def handleClaimBingo (s : ServerStateB) (conn : ℕ) (pattern : String) :
    ServerStateB × List Event :=
  match findPlayerBySocket s conn with
  | none => (s, [])
  | some player =>
    if verifyBingo player pattern then
      let prize := calculatePrize s player.stake
      let w : Winner :=
        { playerId := player.id, playerName := player.name, pattern := pattern, prize := prize }
      let players' :=
        assocUpdate player.id (fun p => { p with markedNumbers := [] }) s.players
      ({ s with winners := s.winners ++ [w], players := players' },
       [Event.broadcastEvt (Msg.winnerAnnouncedMsg w) []])
    else (s, sendErrorEvt conn "Bingo claim could not be verified")

/-- Model of `handleAdminResetGame` (variant B): clears called numbers, winners and
every player's marks — but, unlike variant A, leaves `gameActive` and the
timer untouched. -/
def handleAdminResetGame (s : ServerStateB) (conn : ℕ) : ServerStateB × List Event :=
  if conn ∈ s.adminSockets then
    ({ s with calledNumbers := []
              winners := []
              players := s.players.map (fun kv => (kv.1, { kv.2 with markedNumbers := [] })) },
     [Event.broadcastEvt Msg.gameStateMsg []])
  else (s, sendErrorEvt conn "Unauthorized")

/-- The number space variant B derives from `gameType`. -/
def maxNumberOf (s : ServerStateB) : ℕ :=
  if s.settings.gameType = "90ball" then 90 else 75

/-- Outcome of variant B's unbounded `do ... while` draw loop, run for a
given number of draws: either a number on which the loop exits, or the loop
is still running after the whole budget. -/
inductive DrawOutcome : Type
  | drew (n : ℤ)
  | stillLooping
deriving DecidableEq

/-- The loop `do { number = floor(random * maxN) + 1 } while (called.includes(number)
&& called.length < maxN)`: the loop keeps drawing while it hits duplicates,
with no attempt counter. -/
def drawLoop (o : ℕ → ℕ) (maxN : ℕ) (called : List ℤ) : ℕ → ℕ → DrawOutcome
  | _, 0 => DrawOutcome.stillLooping
  | i, rem + 1 =>
    let n : ℤ := (o i % maxN : ℕ) + 1
    if n ∈ called ∧ called.length < maxN then drawLoop o maxN called (i + 1) rem
    else DrawOutcome.drew n

/-- Model of `handleAdminCallNumber` (variant B), observed for `budget` draws:
`none` means the handler is still inside its draw loop after `budget`
draws (the source loop has no abort counter). -/
def handleAdminCallNumber (s : ServerStateB) (conn : ℕ) (o : ℕ → ℕ) (budget : ℕ) :
    Option (ServerStateB × List Event) :=
  if conn ∈ s.adminSockets then
    if s.gameActive then
      let maxNumber := maxNumberOf s
      match drawLoop o maxNumber s.calledNumbers 0 budget with
      | DrawOutcome.stillLooping => none
      | DrawOutcome.drew n =>
        if maxNumber ≤ s.calledNumbers.length then
          some (s, sendErrorEvt conn "All numbers have been called")
        else
          some ({ s with calledNumbers := s.calledNumbers ++ [n] },
                [Event.broadcastEvt (Msg.numberCalledMsg n) []])
    else some (s, sendErrorEvt conn "Game is not active")
  else some (s, sendErrorEvt conn "Unauthorized")

/-- Model of `handleAdminCallSpecific` (variant B): only the duplicate check — no
range or presence check on the number. -/
def handleAdminCallSpecific (s : ServerStateB) (conn : ℕ) (number : ℤ) :
    ServerStateB × List Event :=
  if conn ∈ s.adminSockets then
    if number ∈ s.calledNumbers then (s, sendErrorEvt conn "Number already called")
    else
      ({ s with calledNumbers := s.calledNumbers ++ [number] },
       [Event.broadcastEvt (Msg.numberCalledMsg number) []])
  else (s, sendErrorEvt conn "Unauthorized")

/-- The i-th permutation of `[0, 1, 2]`: variant B shuffles the row
positions with `[0,1,2].sort(() => Math.random() - 0.5)`, whose outcome is
some permutation selected by the random draws; the selection is modelled by
one oracle value. -/
def permOf (k : ℕ) : List ℕ :=
  [[0, 1, 2], [0, 2, 1], [1, 0, 2], [1, 2, 0], [2, 0, 1], [2, 1, 0]].getD (k % 6) [0, 1, 2]

/-- Column cells of variant B's 90-ball board: start from three `null`
slots, then write `sorted[k]` at row `positions[k]` for each drawn number. -/
def colCellsB (nums : List ℕ) (positions : List ℕ) (c : ℕ) : List Cell :=
  (List.range nums.length).foldl
    (fun acc k =>
      acc.set (positions.getD k 0)
        { val := CellVal.num (nums.getD k 0), column := some (c + 1), marked := false })
    [nullCell, nullCell, nullCell]

/-- Per-column generation of variant B's 90-ball board: each column first
draws `numCount ∈ 1..3` (one oracle value), then `numCount` distinct
numbers from its decade range, then a row permutation (one oracle value). -/
def gen90ColsB (o : ℕ → ℕ) (fuel : ℕ) : ℕ → ℕ → List (ℕ × ℕ) → Option (List (List Cell) × ℕ)
  | i, _, [] => some ([], i)
  | i, c, (lo, hi) :: rest =>
    let numCount := o i % 3 + 1
    match fillSet o lo hi numCount fuel (i + 1) [] with
    | none => none
    | some (nums, i') =>
      let positions := permOf (o i')
      let cells := colCellsB (sortAsc nums) positions c
      match gen90ColsB o fuel (i' + 1) (c + 1) rest with
      | none => none
      | some (cols, i'') => some (cells :: cols, i'')

/-- Variant B's `generate90BallBoard`: columns hold between 1 and 3 numbers
at shuffled row positions, remaining slots stay `null`. -/
def generate90BallBoard (o : ℕ → ℕ) (fuel : ℕ) : Option Board :=
  match gen90ColsB o fuel 0 0 ranges90 with
  | none => none
  | some (cols, _) =>
    some { btype := "90ball"
           rows := (List.range 3).map (fun r =>
             (List.range 9).map (fun c => (cols.getD c []).getD r nullCell)) }

end VariantB

/-! ## Helper lemmas -/

theorem assocGet_assocUpdate {κ α : Type} [DecidableEq κ] (k : κ) (f : α → α)
    (l : List (κ × α)) : assocGet k (assocUpdate k f l) = (assocGet k l).map f := by
  induction l with
  | nil => rfl
  | cons kv rest ih =>
    obtain ⟨k', v⟩ := kv
    by_cases h : k' = k <;> simp [assocGet, assocUpdate, h, ih]

theorem assocGet_map {κ α β : Type} [DecidableEq κ] (k : κ) (f : α → β)
    (l : List (κ × α)) :
    assocGet k (l.map (fun kv => (kv.1, f kv.2))) = (assocGet k l).map f := by
  induction l with
  | nil => rfl
  | cons kv rest ih =>
    obtain ⟨k', v⟩ := kv
    by_cases h : k' = k <;> simp [assocGet, h, ih]

theorem assocGet_map_clearMarks (pid : String) (l : List (String × Player)) :
    assocGet pid (l.map (fun kv => (kv.1, { kv.2 with markedNumbers := [] }))) =
      (assocGet pid l).map (fun p => { p with markedNumbers := [] }) := by
  induction l with
  | nil => rfl
  | cons kv rest ih =>
    obtain ⟨k', v⟩ := kv
    by_cases h : k' = pid <;> simp [assocGet, h, ih]

theorem nodup_append_singleton {α : Type} [DecidableEq α] {l : List α} {x : α}
    (hl : l.Nodup) (hx : x ∉ l) : (l ++ [x]).Nodup := by
  simp [List.nodup_append, hl, List.disjoint_singleton, hx]

theorem mem_listAdd {α : Type} [DecidableEq α] {x y : α} {s : List α} :
    y ∈ listAdd x s ↔ y ∈ s ∨ y = x := by
  by_cases h : x ∈ s
  · simp only [listAdd, if_pos h]
    constructor
    · exact Or.inl
    · rintro (hy | rfl) <;> [exact hy; exact h]
  · simp [listAdd, if_neg h]

theorem nodup_listAdd {α : Type} [DecidableEq α] {x : α} {s : List α}
    (hs : s.Nodup) : (listAdd x s).Nodup := by
  by_cases h : x ∈ s
  · simpa [listAdd, if_pos h] using hs
  · simpa [listAdd, if_neg h] using nodup_append_singleton hs h

theorem length_listAdd {α : Type} [DecidableEq α] (x : α) (s : List α) :
    (listAdd x s).length ≤ s.length + 1 := by
  by_cases h : x ∈ s <;> simp [listAdd, h]

/-! ## Concrete fixtures used by witnesses and counterexamples -/

/-- A participant with five marked numbers, bound to socket 1. -/
def pAlice : Player :=
  { id := "p1"
    name := "Alice"
    stake := 25
    boardType := "75ball"
    board := none
    markedNumbers := [11, 12, 13, 14, 15]
    socket := 1
    connected := true }

/-- A variant A state with `pAlice` joined on connection 1. -/
def sClaim : ServerState :=
  { initialState with
      players := [("p1", pAlice)]
      connections := [(1, ConnInfo.player "p1")] }

/-- A variant B state with `pAlice` on socket 1. -/
def sClaimB : VariantB.ServerStateB :=
  { players := [("p1", pAlice)]
    calledNumbers := []
    gameActive := true
    winners := []
    settings := { serviceFee := 3, winPercentage := 80, callInterval := 7, gameType := "75ball" }
    adminSockets := []
    autoCallInterval := none }

/-! ## C4: the payout formula -/

/-- PayoutCalculator as worded by the spec: `floor( (Σ stakes of all
currently-known participants) × winPercentage/100 × (100-serviceFee)/100 /
max(participantCount, 1) )`. -/
def specPrize (stakes : List ℚ) (participantCount : ℕ) (winPercentage serviceFee : ℚ) : ℤ :=
  ⌊stakes.sum * (winPercentage / 100) * ((100 - serviceFee) / 100) /
    (max participantCount 1 : ℚ)⌋

/-- C4: `calculatePrize` returns exactly the spec formula over the stakes of
all currently-known participants, and it is insensitive to the participants'
connected flags (disconnected stakes are included). -/
theorem calculatePrize_eq_specPrize :
    (∀ (s : ServerState) (stake : ℚ),
      calculatePrize s stake =
        specPrize ((assocValues s.players).map Player.stake) s.players.length
          s.settings.winPercentage s.settings.serviceFee) ∧
    (∀ (s : ServerState) (stake : ℚ) (f : String → Player → Bool),
      calculatePrize
        { s with players :=
            s.players.map (fun kv => (kv.1, { kv.2 with connected := f kv.1 kv.2 })) } stake =
      calculatePrize s stake) := by
  constructor
  · intro s stake
    rfl
  · intro s stake f
    simp only [calculatePrize, stakeSum, assocValues, List.map_map, List.length_map,
      Function.comp_def]

/-! ## C1: a claim awards at most one Winner, and only on verification -/

/-- C1: for a `claimBingo` from a connection bound to a participant, a
rejected claim sends exactly an error event to the claimant and leaves the
whole state (winners and marks included) unchanged; a verified claim appends
exactly one Winner. No call grows the winners list by more than one. -/
theorem handleClaimBingo_award (s : ServerState) (conn : ℕ) (pattern : String) :
    (handleClaimBingo s conn pattern).1.winners.length ≤ s.winners.length + 1 ∧
    (∀ pid p, assocGet conn s.connections = some (ConnInfo.player pid) →
      assocGet pid s.players = some p →
      (verifyBingo p pattern = false →
        handleClaimBingo s conn pattern =
          (s, [Event.errorEvt conn "Bingo claim could not be verified"])) ∧
      (verifyBingo p pattern = true →
        (handleClaimBingo s conn pattern).1 =
          { s with winners := s.winners ++
              [{ playerId := p.id, playerName := p.name, pattern := pattern,
                 prize := calculatePrize s p.stake }] })) := by
  constructor
  · unfold handleClaimBingo
    cases h1 : assocGet conn s.connections with
    | none => simp
    | some ci =>
      cases ci with
      | admin => simp
      | player pid =>
        cases h2 : assocGet pid s.players with
        | none => simp [h2]
        | some p =>
          by_cases hv : verifyBingo p pattern = true <;>
            simp [h2, hv, sendErrorEvt, Nat.le_succ]
  · intro pid p h1 h2
    constructor <;> intro hv <;>
      simp [handleClaimBingo, h1, h2, hv, sendErrorEvt]

/-- C1 witness: in the concrete state `sClaim`, the bound participant
`pAlice` has five marks, so a `"row"` claim is verified and appends exactly
its Winner record. -/
theorem handleClaimBingo_award_witness :
    (handleClaimBingo sClaim 1 "row").1 =
      { sClaim with winners := sClaim.winners ++
          [{ playerId := pAlice.id, playerName := pAlice.name, pattern := "row",
             prize := calculatePrize sClaim pAlice.stake }] } :=
  ((handleClaimBingo_award sClaim 1 "row").2 "p1" pAlice rfl rfl).2 (by decide)

/-! ## C2: does a verified claim clear the claimant's marks? -/

/-- C2 as stated, read against variant A's `handleClaimBingo` (the handler
at lines 439-472): after a successful claim the claimant's marked-numbers
set is empty. -/
def claimC2Statement : Prop :=
  ∀ (s : ServerState) (conn : ℕ) (pattern : String) (pid : String) (p : Player),
    assocGet conn s.connections = some (ConnInfo.player pid) →
    assocGet pid s.players = some p →
    verifyBingo p pattern = true →
    ∀ q, assocGet pid (handleClaimBingo s conn pattern).1.players = some q →
      q.markedNumbers = []

/-- C2 counterexample: in `sClaim`, `pAlice` claims `"row"` successfully,
yet her five marked numbers survive the claim — variant A never clears
marks. -/
theorem claimC2_counterexample : ¬claimC2Statement := by
  intro h
  have := h sClaim 1 "row" "p1" pAlice rfl rfl (by decide) pAlice (by decide)
  exact absurd this (by decide)

/-- C2 amended: in the most complete variant a successful claim leaves the
players map (in particular the claimant's marks) unchanged; in the earlier
variant it clears the claimant's marked numbers. -/
theorem claimBingo_marks_amended :
    (∀ (s : ServerState) (conn : ℕ) (pattern : String) (pid : String) (p : Player),
      assocGet conn s.connections = some (ConnInfo.player pid) →
      assocGet pid s.players = some p →
      verifyBingo p pattern = true →
      (handleClaimBingo s conn pattern).1.players = s.players) ∧
    (∀ (s : VariantB.ServerStateB) (conn : ℕ) (pattern : String) (p : Player),
      VariantB.findPlayerBySocket s conn = some p →
      VariantB.verifyBingo p pattern = true →
      ∀ q, assocGet p.id (VariantB.handleClaimBingo s conn pattern).1.players = some q →
        q.markedNumbers = []) := by
  constructor
  · intro s conn pattern pid p h1 h2 hv
    simp [handleClaimBingo, h1, h2, hv]
  · intro s conn pattern p h1 hv q hq
    simp only [VariantB.handleClaimBingo, h1, hv, if_true] at hq
    rw [assocGet_assocUpdate] at hq
    cases h : assocGet p.id s.players with
    | none => rw [h] at hq; exact absurd hq (by simp)
    | some q0 =>
      rw [h] at hq
      have hq' : ({ q0 with markedNumbers := [] } : Player) = q := Option.some.inj hq
      rw [← hq']

/-- C2 amended witness: concrete successful claims in both variants —
variant A leaves `sClaim`'s players untouched, variant B returns the
claimant with an empty marked set. -/
theorem claimBingo_marks_amended_witness :
    (handleClaimBingo sClaim 1 "row").1.players = sClaim.players ∧
    ({ pAlice with markedNumbers := [] } : Player).markedNumbers = [] :=
  ⟨claimBingo_marks_amended.1 sClaim 1 "row" "p1" pAlice rfl rfl (by decide),
   claimBingo_marks_amended.2 sClaimB 1 "row" pAlice (by decide) (by decide)
     { pAlice with markedNumbers := [] } (by decide)⟩

/-! ## C5: adminResetGame -/

/-- A variant B state with an admin on socket 0 and the game active. -/
def sAdminB : VariantB.ServerStateB := { sClaimB with adminSockets := [0] }

/-- C5 as stated, read against both cited `handleAdminResetGame` handlers:
afterwards called numbers, winners, the active flag, and every participant's
marks are cleared, while each participant keeps id, name, stake and board. -/
def claimC5Statement : Prop :=
  (∀ (s : ServerState) (conn : ℕ), conn ∈ s.adminConnections →
    (handleAdminResetGame s conn).1.calledNumbers = [] ∧
    (handleAdminResetGame s conn).1.winners = [] ∧
    (handleAdminResetGame s conn).1.gameActive = false ∧
    ∀ pid p, assocGet pid s.players = some p →
      assocGet pid (handleAdminResetGame s conn).1.players =
        some { p with markedNumbers := [] }) ∧
  (∀ (s : VariantB.ServerStateB) (conn : ℕ), conn ∈ s.adminSockets →
    (VariantB.handleAdminResetGame s conn).1.calledNumbers = [] ∧
    (VariantB.handleAdminResetGame s conn).1.winners = [] ∧
    (VariantB.handleAdminResetGame s conn).1.gameActive = false ∧
    ∀ pid p, assocGet pid s.players = some p →
      assocGet pid (VariantB.handleAdminResetGame s conn).1.players =
        some { p with markedNumbers := [] })

/-- C5 counterexample: in the earlier variant's `handleAdminResetGame` the
active flag is not cleared — resetting `sAdminB` (admin socket 0, game
active) leaves `gameActive = true`. -/
theorem claimC5_counterexample : ¬claimC5Statement := by
  intro h
  have := (h.2 sAdminB 0 (by decide)).2.2.1
  exact absurd this (by decide)

/-- C5 amended: in the most complete variant an admin reset clears called
numbers, winners, the active flag, the auto-call timer and every
participant's marks while preserving each participant's id, name, stake and
board; the earlier variant does the same except that the active flag (and
timer) are left unchanged. -/
theorem adminResetGame_amended :
    (∀ (s : ServerState) (conn : ℕ), conn ∈ s.adminConnections →
      (handleAdminResetGame s conn).1.calledNumbers = [] ∧
      (handleAdminResetGame s conn).1.winners = [] ∧
      (handleAdminResetGame s conn).1.gameActive = false ∧
      (handleAdminResetGame s conn).1.autoCallIntervalId = none ∧
      ∀ pid p, assocGet pid s.players = some p →
        assocGet pid (handleAdminResetGame s conn).1.players =
          some { p with markedNumbers := [] }) ∧
    (∀ (s : VariantB.ServerStateB) (conn : ℕ), conn ∈ s.adminSockets →
      (VariantB.handleAdminResetGame s conn).1.calledNumbers = [] ∧
      (VariantB.handleAdminResetGame s conn).1.winners = [] ∧
      (VariantB.handleAdminResetGame s conn).1.gameActive = s.gameActive ∧
      ∀ pid p, assocGet pid s.players = some p →
        assocGet pid (VariantB.handleAdminResetGame s conn).1.players =
          some { p with markedNumbers := [] }) := by
  constructor
  · intro s conn hadm
    refine ⟨?_, ?_, ?_, ?_, ?_⟩ <;>
      simp only [handleAdminResetGame, if_pos hadm]
    intro pid p hp
    rw [assocGet_map_clearMarks, hp]
    rfl
  · intro s conn hadm
    refine ⟨?_, ?_, ?_, ?_⟩ <;>
      simp only [VariantB.handleAdminResetGame, if_pos hadm]
    intro pid p hp
    rw [assocGet_map_clearMarks, hp]
    rfl

/-- C5 amended witness: resetting the concrete states clears Alice's marks
in both variants while keeping her record; variant B's active flag stays as
it was. -/
theorem adminResetGame_amended_witness :
    assocGet "p1" (handleAdminResetGame { sClaim with adminConnections := [0] } 0).1.players =
      some { pAlice with markedNumbers := [] } ∧
    (VariantB.handleAdminResetGame sAdminB 0).1.gameActive = sAdminB.gameActive :=
  ⟨(adminResetGame_amended.1 { sClaim with adminConnections := [0] } 0 (by decide)).2.2.2.2
      "p1" pAlice rfl,
   (adminResetGame_amended.2 sAdminB 0 (by decide)).2.2.1⟩

/-! ## C6: adminCallSpecific argument validation -/

/-- C6 as stated, read against both cited `handleAdminCallSpecific`
handlers: a missing, out-of-range, or duplicate number produces an error
event to the issuing admin and leaves the state unchanged. -/
def claimC6Statement : Prop :=
  (∀ (s : ServerState) (conn : ℕ) (num : Option ℤ), conn ∈ s.adminConnections →
    (num = none ∨
      (∃ n, num = some n ∧ (n < 1 ∨ (s.settings.maxNumbers : ℤ) < n)) ∨
      (∃ n, num = some n ∧ n ∈ s.calledNumbers)) →
    (handleAdminCallSpecific s conn num).1 = s ∧
    ∃ msg, (handleAdminCallSpecific s conn num).2 = [Event.errorEvt conn msg]) ∧
  (∀ (s : VariantB.ServerStateB) (conn : ℕ) (n : ℤ), conn ∈ s.adminSockets →
    (n < 1 ∨ (VariantB.maxNumberOf s : ℤ) < n ∨ n ∈ s.calledNumbers) →
    (VariantB.handleAdminCallSpecific s conn n).1 = s ∧
    ∃ msg, (VariantB.handleAdminCallSpecific s conn n).2 = [Event.errorEvt conn msg])

/-- C6 counterexample: the earlier variant's `handleAdminCallSpecific` has
no range check — an admin calling 100 into a fresh 75-ball game appends 100
instead of erroring. -/
theorem claimC6_counterexample : ¬claimC6Statement := by
  intro h
  have := (h.2 sAdminB 0 100 (by decide) (by decide)).1
  exact absurd this (by decide)

/-- C6 amended: in the most complete variant a missing, out-of-range, or
duplicate number yields an error and no state change (hence a repeated
`adminCallSpecific` of the same number never changes the called count at
the second call); the earlier variant rejects only duplicates. -/
theorem adminCallSpecific_amended :
    (∀ (s : ServerState) (conn : ℕ) (num : Option ℤ), conn ∈ s.adminConnections →
      (num = none ∨
        (∃ n, num = some n ∧ (n < 1 ∨ (s.settings.maxNumbers : ℤ) < n)) ∨
        (∃ n, num = some n ∧ n ∈ s.calledNumbers)) →
      (handleAdminCallSpecific s conn num).1 = s ∧
      ∃ msg, (handleAdminCallSpecific s conn num).2 = [Event.errorEvt conn msg]) ∧
    (∀ (s : ServerState) (conn : ℕ) (n : ℤ), conn ∈ s.adminConnections →
      ((handleAdminCallSpecific ((handleAdminCallSpecific s conn (some n)).1) conn
          (some n)).1.calledNumbers.length =
        (handleAdminCallSpecific s conn (some n)).1.calledNumbers.length)) ∧
    (∀ (s : VariantB.ServerStateB) (conn : ℕ) (n : ℤ), conn ∈ s.adminSockets →
      n ∈ s.calledNumbers →
      (VariantB.handleAdminCallSpecific s conn n).1 = s ∧
      ∃ msg, (VariantB.handleAdminCallSpecific s conn n).2 = [Event.errorEvt conn msg]) := by
  refine ⟨?_, ?_, ?_⟩
  · intro s conn num hadm hbad
    rcases hbad with rfl | ⟨n, rfl, hr⟩ | ⟨n, rfl, hd⟩
    · simp [handleAdminCallSpecific, hadm, sendErrorEvt]
    · refine ⟨?_, "Invalid number", ?_⟩ <;>
        simp [handleAdminCallSpecific, hadm, if_pos hr, sendErrorEvt]
    · by_cases hr : n < 1 ∨ (s.settings.maxNumbers : ℤ) < n
      · refine ⟨?_, "Invalid number", ?_⟩ <;>
          simp [handleAdminCallSpecific, hadm, if_pos hr, sendErrorEvt]
      · refine ⟨?_, "Number already called", ?_⟩ <;>
          simp [handleAdminCallSpecific, hadm, if_neg hr, hd, sendErrorEvt]
  · intro s conn n hadm
    by_cases hr : n < 1 ∨ (s.settings.maxNumbers : ℤ) < n
    · simp [handleAdminCallSpecific, hadm, if_pos hr, sendErrorEvt]
    · by_cases hd : n ∈ s.calledNumbers
      · simp [handleAdminCallSpecific, hadm, if_neg hr, hd, sendErrorEvt]
      · simp [handleAdminCallSpecific, hadm, if_neg hr, hd, sendErrorEvt]
  · intro s conn n hadm hd
    refine ⟨?_, "Number already called", ?_⟩ <;>
      simp [VariantB.handleAdminCallSpecific, hadm, hd, sendErrorEvt]

/-- C6 amended witness: in the most complete variant, with admin socket 0
on the fresh state, calling 0 (falsy), 76 (out of range), and calling 5
twice all behave as the amended claim says. -/
theorem adminCallSpecific_amended_witness :
    ((handleAdminCallSpecific { sClaim with adminConnections := [0] } 0 (some 76)).1 =
        { sClaim with adminConnections := [0] } ∧
      ∃ msg, (handleAdminCallSpecific { sClaim with adminConnections := [0] } 0
          (some 76)).2 = [Event.errorEvt 0 msg]) ∧
    (handleAdminCallSpecific
        ((handleAdminCallSpecific { sClaim with adminConnections := [0] } 0 (some 5)).1) 0
        (some 5)).1.calledNumbers.length =
      (handleAdminCallSpecific { sClaim with adminConnections := [0] } 0
        (some 5)).1.calledNumbers.length :=
  ⟨adminCallSpecific_amended.1 { sClaim with adminConnections := [0] } 0 (some 76) (by decide)
      (Or.inr (Or.inl ⟨76, rfl, by decide⟩)),
   adminCallSpecific_amended.2.1 { sClaim with adminConnections := [0] } 0 5 (by decide)⟩

/-! ## C7: adminCallNumber termination and draw bound -/

theorem drawFresh_not_mem (o : ℕ → ℕ) (maxN : ℕ) (called : List ℤ) :
    ∀ rem i n, drawFresh o maxN called i rem = some n → n ∉ called := by
  intro rem
  induction rem with
  | zero => intro i n h; exact absurd h (by simp [drawFresh])
  | succ rem ih =>
    intro i n h
    simp only [drawFresh] at h
    by_cases hm : ((o i % maxN : ℕ) : ℤ) + 1 ∈ called
    · rw [if_pos hm] at h
      exact ih _ _ h
    · rw [if_neg hm] at h
      cases h
      exact hm

theorem drawFresh_bounds (o : ℕ → ℕ) (maxN : ℕ) (called : List ℤ) (hpos : 0 < maxN) :
    ∀ rem i n, drawFresh o maxN called i rem = some n → 1 ≤ n ∧ n ≤ (maxN : ℤ) := by
  intro rem
  induction rem with
  | zero => intro i n h; exact absurd h (by simp [drawFresh])
  | succ rem ih =>
    intro i n h
    simp only [drawFresh] at h
    by_cases hm : ((o i % maxN : ℕ) : ℤ) + 1 ∈ called
    · rw [if_pos hm] at h
      exact ih _ _ h
    · rw [if_neg hm] at h
      cases h
      have hlt : o i % maxN < maxN := Nat.mod_lt _ hpos
      constructor
      · have : (0 : ℤ) ≤ ((o i % maxN : ℕ) : ℤ) := Int.ofNat_nonneg _
        omega
      · exact_mod_cast Nat.succ_le_of_lt hlt

/-- C7 as stated, read against both cited `handleAdminCallNumber` handlers:
the draw loop completes (with a number or an abandon error) within twice
the number-space size draws. For variant B, `none` would mean the handler
is still looping after that budget. -/
def claimC7Statement : Prop :=
  (∀ (s : ServerState) (conn : ℕ) (o : ℕ → ℕ),
    conn ∈ s.adminConnections → s.gameActive = true →
    (∃ msg, handleAdminCallNumber s conn o = (s, [Event.errorEvt conn msg])) ∨
    (∃ n, n ∉ s.calledNumbers ∧
      handleAdminCallNumber s conn o =
        ({ s with calledNumbers := s.calledNumbers ++ [n] },
         [Event.broadcastEvt (Msg.numberCalledMsg n) []]))) ∧
  (∀ (s : VariantB.ServerStateB) (conn : ℕ) (o : ℕ → ℕ),
    conn ∈ s.adminSockets → s.gameActive = true →
    VariantB.handleAdminCallNumber s conn o (2 * VariantB.maxNumberOf s) ≠ none)

/-- A variant B state with one called number, used to starve the unbounded
draw loop. -/
def sDrawB : VariantB.ServerStateB := { sAdminB with calledNumbers := [5] }

/-- C7 counterexample: the earlier variant's draw loop has no attempt
counter — with 5 already called and an oracle that always draws 5, the
handler is still looping after 150 (= 2 × 75) draws instead of abandoning
with an error. -/
theorem claimC7_counterexample : ¬claimC7Statement := by
  intro h
  exact absurd (by decide :
      VariantB.handleAdminCallNumber sDrawB 0 (fun _ => 4)
        (2 * VariantB.maxNumberOf sDrawB) = none)
    (h.2 sDrawB 0 (fun _ => 4) (by decide) rfl)

/-- C7 amended: in the most complete variant, `handleAdminCallNumber`
invoked by an admin while the game is active always terminates — after at
most `2 * maxNumbers` rejected duplicate draws it abandons with an error
and appends nothing, and otherwise it appends exactly one number from
`1..maxNumbers` that was not previously called. (The earlier variant has no
draw bound.) -/
theorem handleAdminCallNumber_spec (s : ServerState) (conn : ℕ) (o : ℕ → ℕ)
    (hadm : conn ∈ s.adminConnections) (hact : s.gameActive = true) :
    (∃ msg, handleAdminCallNumber s conn o = (s, [Event.errorEvt conn msg])) ∨
    (∃ n, n ∉ s.calledNumbers ∧ 1 ≤ n ∧ n ≤ (s.settings.maxNumbers : ℤ) ∧
      handleAdminCallNumber s conn o =
        ({ s with calledNumbers := s.calledNumbers ++ [n] },
         [Event.broadcastEvt (Msg.numberCalledMsg n) []])) := by
  cases hdraw : drawFresh o s.settings.maxNumbers s.calledNumbers 0
      (2 * s.settings.maxNumbers) with
  | none =>
    left
    exact ⟨"Unable to find unused number",
      by simp [handleAdminCallNumber, hadm, hact, hdraw, sendErrorEvt]⟩
  | some n =>
    right
    have hpos : 0 < s.settings.maxNumbers := by
      by_contra hz
      have h0 : s.settings.maxNumbers = 0 := by omega
      rw [h0] at hdraw
      exact absurd hdraw (by simp [drawFresh])
    refine ⟨n, drawFresh_not_mem _ _ _ _ _ _ hdraw,
      (drawFresh_bounds _ _ _ hpos _ _ _ hdraw).1,
      (drawFresh_bounds _ _ _ hpos _ _ _ hdraw).2, ?_⟩
    simp [handleAdminCallNumber, hadm, hact, hdraw]

/-- C7 amended witness: admin 0 calls a number into a started game; the
dichotomy of `handleAdminCallNumber_spec` holds at the concrete state (here
the all-zero oracle draws 1 immediately). -/
theorem handleAdminCallNumber_spec_witness :
    (∃ msg, handleAdminCallNumber
        { sClaim with adminConnections := [0], gameActive := true } 0 (fun _ => 0) =
      ({ sClaim with adminConnections := [0], gameActive := true }, [Event.errorEvt 0 msg])) ∨
    (∃ n, n ∉ ({ sClaim with adminConnections := [0], gameActive := true } :
          ServerState).calledNumbers ∧ 1 ≤ n ∧
        n ≤ (({ sClaim with adminConnections := [0], gameActive := true } :
          ServerState).settings.maxNumbers : ℤ) ∧
      handleAdminCallNumber
          { sClaim with adminConnections := [0], gameActive := true } 0 (fun _ => 0) =
        ({ { sClaim with adminConnections := [0], gameActive := true } with
            calledNumbers := ({ sClaim with adminConnections := [0], gameActive := true } :
              ServerState).calledNumbers ++ [n] },
         [Event.broadcastEvt (Msg.numberCalledMsg n) []])) :=
  handleAdminCallNumber_spec { sClaim with adminConnections := [0], gameActive := true } 0
    (fun _ => 0) (by decide) rfl

/-! ## C3: the calledNumbers invariant -/

theorem handleAdminCallNumber_called_nodup (s : ServerState) (conn : ℕ) (o : ℕ → ℕ)
    (h : s.calledNumbers.Nodup) :
    (handleAdminCallNumber s conn o).1.calledNumbers.Nodup := by
  by_cases hadm : conn ∈ s.adminConnections
  · by_cases hact : s.gameActive = true
    · cases hdraw : drawFresh o s.settings.maxNumbers s.calledNumbers 0
          (2 * s.settings.maxNumbers) with
      | none => simpa [handleAdminCallNumber, hadm, hact, hdraw, sendErrorEvt] using h
      | some n =>
        have hmem := drawFresh_not_mem _ _ _ _ _ _ hdraw
        simpa [handleAdminCallNumber, hadm, hact, hdraw] using
          nodup_append_singleton h hmem
    · simpa [handleAdminCallNumber, hadm, hact, sendErrorEvt] using h
  · simpa [handleAdminCallNumber, hadm, sendErrorEvt] using h

theorem handleAdminCallSpecific_called_nodup (s : ServerState) (conn : ℕ) (num : Option ℤ)
    (h : s.calledNumbers.Nodup) :
    (handleAdminCallSpecific s conn num).1.calledNumbers.Nodup := by
  by_cases hadm : conn ∈ s.adminConnections
  · cases num with
    | none => simpa [handleAdminCallSpecific, hadm, sendErrorEvt] using h
    | some n =>
      by_cases hr : n < 1 ∨ (s.settings.maxNumbers : ℤ) < n
      · simpa [handleAdminCallSpecific, hadm, if_pos hr, sendErrorEvt] using h
      · by_cases hd : n ∈ s.calledNumbers
        · simpa [handleAdminCallSpecific, hadm, if_neg hr, hd, sendErrorEvt] using h
        · simpa [handleAdminCallSpecific, hadm, if_neg hr, hd] using
            nodup_append_singleton h hd
  · simpa [handleAdminCallSpecific, hadm, sendErrorEvt] using h

theorem stepState_called_nodup (s : ServerState) (c : Cmd)
    (h : s.calledNumbers.Nodup) : (stepState s c).calledNumbers.Nodup := by
  cases c with
  | setAdmin conn => exact h
  | joinGame conn pid name stake bt genId o => exact h
  | markNumber conn payload =>
    show (handleMarkNumber s conn payload).1.calledNumbers.Nodup
    unfold handleMarkNumber
    repeat' split
    all_goals exact h
  | claimBingo conn pattern =>
    show (handleClaimBingo s conn pattern).1.calledNumbers.Nodup
    unfold handleClaimBingo
    repeat' split
    all_goals exact h
  | adminStartGame conn =>
    show (handleAdminStartGame s conn).1.calledNumbers.Nodup
    unfold handleAdminStartGame
    split
    · exact List.nodup_nil
    · exact h
  | adminPauseGame conn =>
    show (handleAdminPauseGame s conn).1.calledNumbers.Nodup
    unfold handleAdminPauseGame
    split <;> exact h
  | adminResetGame conn =>
    show (handleAdminResetGame s conn).1.calledNumbers.Nodup
    unfold handleAdminResetGame
    split
    · exact List.nodup_nil
    · exact h
  | adminCallNumber conn o => exact handleAdminCallNumber_called_nodup s conn o h
  | adminCallSpecific conn num => exact handleAdminCallSpecific_called_nodup s conn num h
  | adminToggleAutoCall conn enabled =>
    show (handleAdminToggleAutoCall s conn enabled).1.calledNumbers.Nodup
    unfold handleAdminToggleAutoCall
    repeat' split
    all_goals exact h
  | adminUpdateSettings conn patch =>
    show (handleAdminUpdateSettings s conn patch).1.calledNumbers.Nodup
    dsimp only [handleAdminUpdateSettings]
    repeat' split
    all_goals exact h
  | disconnect conn =>
    show (handleDisconnection s conn).1.calledNumbers.Nodup
    unfold handleDisconnection
    repeat' split
    all_goals exact h
  | autoCallTick conn o =>
    show (if s.autoCallIntervalId ≠ none ∧ s.gameActive = true then
        handleAdminCallNumber s conn o else (s, [])).1.calledNumbers.Nodup
    split
    · exact handleAdminCallNumber_called_nodup s conn o h
    · exact h

theorem execList_called_nodup :
    ∀ (cmds : List Cmd) (s : ServerState), s.calledNumbers.Nodup →
      (execList s cmds).calledNumbers.Nodup := by
  intro cmds
  induction cmds with
  | nil => intro s h; exact h
  | cons c rest ih =>
    intro s h
    exact ih (stepState s c) (stepState_called_nodup s c h)

/-- C3 as stated: over every reachable state, `calledNumbers` has no
duplicates and its length never exceeds `settings.maxNumbers`. -/
def claimC3Statement : Prop :=
  ∀ s, Reachable s →
    s.calledNumbers.Nodup ∧ s.calledNumbers.length ≤ s.settings.maxNumbers

/-- The counterexample trace: an admin starts the game and calls 1..31 into
the default 75-number space, then a player joins with a `30ball` board,
which shrinks `settings.maxNumbers` to 30 below the 31 already-called
numbers. -/
def shrinkTrace : List Cmd :=
  [Cmd.setAdmin 0, Cmd.adminStartGame 0] ++
    (List.range 31).map (fun k => Cmd.adminCallSpecific 0 (some ((k : ℤ) + 1))) ++
    [Cmd.joinGame 1 none "bob" none (some "30ball") "g1" (fun i => i)]

/-- The state reached by `shrinkTrace`. -/
def shrunkState : ServerState := execList initialState shrinkTrace

set_option maxRecDepth 4000 in
/-- C3 counterexample: `shrunkState` is reachable, yet its 31 called
numbers exceed its `maxNumbers` of 30 — a `joinGame` that shrinks the
number space breaks the length bound. -/
theorem claimC3_counterexample : ¬claimC3Statement := by
  intro h
  have := (h shrunkState ⟨shrinkTrace, rfl⟩).2
  exact absurd this (by decide)

/-- C3 amended: in every reachable state `calledNumbers` is duplicate-free
(every append is guarded by a membership check and resets clear the list);
the length bound `≤ maxNumbers` does not survive a `joinGame` that shrinks
the number space below the already-called count. -/
theorem calledNumbers_nodup_of_reachable (s : ServerState) (h : Reachable s) :
    s.calledNumbers.Nodup := by
  obtain ⟨cmds, rfl⟩ := h
  exact execList_called_nodup cmds initialState List.nodup_nil

/-- C3 amended witness: the duplicate-freeness invariant instantiated at
the concrete reachable state `shrunkState` (31 distinct called numbers). -/
theorem calledNumbers_nodup_of_reachable_witness : shrunkState.calledNumbers.Nodup :=
  calledNumbers_nodup_of_reachable shrunkState ⟨shrinkTrace, rfl⟩

/-! ## C10: displayed pot vs prize pool -/

/-- The pool used by `calculatePrize` before the per-player division (the
source's `afterFee` value): all stakes, connected or not, times the win
percentage and the fee factor. -/
def prizePoolAll (s : ServerState) : ℚ :=
  stakeSum (assocValues s.players) * (s.settings.winPercentage / 100) *
    ((100 - s.settings.serviceFee) / 100)

theorem stakeSum_cons (p : Player) (l : List Player) :
    stakeSum (p :: l) = p.stake + stakeSum l := by
  simp [stakeSum]

theorem stakeSum_filter_split (l : List Player) :
    stakeSum l =
      stakeSum (l.filter (fun p => p.connected)) +
        stakeSum (l.filter (fun p => !p.connected)) := by
  induction l with
  | nil => simp [stakeSum]
  | cons p rest ih =>
    cases hp : p.connected <;>
      simp [List.filter_cons, hp, stakeSum_cons, ih] <;> ring

theorem stakeSum_nonneg (l : List Player) (h : ∀ p ∈ l, 0 ≤ p.stake) :
    0 ≤ stakeSum l := by
  induction l with
  | nil => simp [stakeSum]
  | cons p rest ih =>
    rw [stakeSum_cons]
    have := h p (by simp)
    have := ih (fun q hq => h q (by simp [hq]))
    linarith

theorem stakeSum_pos (l : List Player) (hnn : ∀ p ∈ l, 0 ≤ p.stake)
    (hp : ∃ p ∈ l, 0 < p.stake) : 0 < stakeSum l := by
  induction l with
  | nil => simp at hp
  | cons p rest ih =>
    rw [stakeSum_cons]
    obtain ⟨q, hq, hqpos⟩ := hp
    rcases List.mem_cons.mp hq with rfl | hq'
    · have := stakeSum_nonneg rest (fun r hr => hnn r (by simp [hr]))
      linarith
    · have := ih (fun r hr => hnn r (by simp [hr])) ⟨q, hq', hqpos⟩
      have := hnn p (by simp)
      linarith

/-- C10 as stated: whenever some disconnected participant has a positive
stake, the pot displayed in `gameState` and the pool used by
`calculatePrize` disagree. -/
def claimC10Statement : Prop :=
  ∀ s : ServerState,
    (∃ p ∈ assocValues s.players, p.connected = false ∧ 0 < p.stake) →
    (calculateCurrentPot s : ℚ) ≠ prizePoolAll s

/-- A disconnected participant with a positive stake. -/
def pDan : Player :=
  { id := "p2"
    name := "Dan"
    stake := 10
    boardType := "75ball"
    board := none
    markedNumbers := []
    socket := 2
    connected := false }

/-- A state whose `winPercentage` has been set to 0 (reachable through
`adminUpdateSettings`) with a disconnected positive-stake participant. -/
def sZeroWin : ServerState :=
  { initialState with
      players := [("p2", pDan)]
      settings := { initialState.settings with winPercentage := 0 } }

/-- C10 counterexample: with `winPercentage = 0` both the displayed pot and
the prize pool are 0, so they agree even though the disconnected `pDan` has
a positive stake. -/
theorem claimC10_counterexample : ¬claimC10Statement := by
  intro h
  refine h sZeroWin ⟨pDan, ?_, rfl, by norm_num [pDan]⟩ ?_
  · simp [assocValues, sZeroWin]
  · norm_num [calculateCurrentPot, prizePoolAll, stakeSum, assocValues, sZeroWin, pDan,
      initialState]

/-- C10 amended: whenever some disconnected participant has a positive
stake, no stake is negative, the win percentage is positive and the service
fee is below 100, the displayed pot (connected stakes only, floored) is
strictly below the prize pool used by `calculatePrize` (all stakes) — the
two disagree within the same process. -/
theorem calculateCurrentPot_lt_prizePool (s : ServerState)
    (hnn : ∀ p ∈ assocValues s.players, 0 ≤ p.stake)
    (hd : ∃ p ∈ assocValues s.players, p.connected = false ∧ 0 < p.stake)
    (hwp : 0 < s.settings.winPercentage)
    (hsf : s.settings.serviceFee < 100) :
    (calculateCurrentPot s : ℚ) < prizePoolAll s := by
  set P := assocValues s.players with hP
  have hsplit := stakeSum_filter_split P
  have hdpos : 0 < stakeSum (P.filter (fun p => !p.connected)) := by
    obtain ⟨p, hpmem, hpconn, hppos⟩ := hd
    refine stakeSum_pos _ ?_ ⟨p, ?_, hppos⟩
    · intro q hq
      exact hnn q (List.mem_of_mem_filter hq)
    · rw [List.mem_filter]
      exact ⟨hpmem, by simp [hpconn]⟩
  have hlt : stakeSum (P.filter (fun p => p.connected)) < stakeSum P := by linarith
  have hf : 0 < (s.settings.winPercentage / 100) * ((100 - s.settings.serviceFee) / 100) := by
    have h1 : 0 < s.settings.winPercentage / 100 := by positivity
    have h2 : 0 < (100 - s.settings.serviceFee) / 100 := by
      have : 0 < 100 - s.settings.serviceFee := by linarith
      positivity
    positivity
  have hmul :
      stakeSum (P.filter (fun p => p.connected)) * (s.settings.winPercentage / 100) *
          ((100 - s.settings.serviceFee) / 100) <
        stakeSum P * (s.settings.winPercentage / 100) *
          ((100 - s.settings.serviceFee) / 100) := by
    calc stakeSum (P.filter (fun p => p.connected)) * (s.settings.winPercentage / 100) *
          ((100 - s.settings.serviceFee) / 100)
        = stakeSum (P.filter (fun p => p.connected)) *
            ((s.settings.winPercentage / 100) * ((100 - s.settings.serviceFee) / 100)) := by
          ring
      _ < stakeSum P *
            ((s.settings.winPercentage / 100) * ((100 - s.settings.serviceFee) / 100)) :=
          mul_lt_mul_of_pos_right hlt hf
      _ = stakeSum P * (s.settings.winPercentage / 100) *
            ((100 - s.settings.serviceFee) / 100) := by ring
  calc (calculateCurrentPot s : ℚ)
      ≤ stakeSum (P.filter (fun p => p.connected)) * (s.settings.winPercentage / 100) *
          ((100 - s.settings.serviceFee) / 100) := Int.floor_le _
    _ < prizePoolAll s := hmul

/-- C10 amended witness: with connected Alice (stake 25) and disconnected
Dan (stake 10) under the default settings, the displayed pot is strictly
below the prize pool. -/
theorem calculateCurrentPot_lt_prizePool_witness :
    (calculateCurrentPot
        { initialState with players := [("p1", pAlice), ("p2", pDan)] } : ℚ) <
      prizePoolAll { initialState with players := [("p1", pAlice), ("p2", pDan)] } :=
  calculateCurrentPot_lt_prizePool
    { initialState with players := [("p1", pAlice), ("p2", pDan)] }
    (by intro p hp
        simp [assocValues] at hp
        rcases hp with rfl | rfl <;> norm_num [pAlice, pDan])
    ⟨pDan, by simp [assocValues], rfl, by norm_num [pDan]⟩
    (by norm_num [initialState]) (by norm_num [initialState])

/-! ## Lemmas about the draw/sort helpers -/

theorem sortAsc_sorted (l : List ℕ) : (sortAsc l).Sorted (· ≤ ·) :=
  List.sorted_insertionSort _ l

theorem sortAsc_perm (l : List ℕ) : List.Perm (sortAsc l) l := List.perm_insertionSort _ l

theorem sortAsc_length (l : List ℕ) : (sortAsc l).length = l.length :=
  (sortAsc_perm l).length_eq

theorem sortAsc_nodup {l : List ℕ} (h : l.Nodup) : (sortAsc l).Nodup :=
  ((sortAsc_perm l).nodup_iff).mpr h

theorem mem_sortAsc {l : List ℕ} {x : ℕ} : x ∈ sortAsc l ↔ x ∈ l :=
  (sortAsc_perm l).mem_iff

theorem getD_mem {l : List ℕ} {i : ℕ} (h : i < l.length) : l.getD i 0 ∈ l := by
  rw [List.getD_eq_getElem _ _ h]
  exact List.getElem_mem h

theorem getD_ne_of_nodup {l : List ℕ} (hn : l.Nodup) {i j : ℕ} (hij : i ≠ j)
    (hi : i < l.length) (hj : j < l.length) : l.getD i 0 ≠ l.getD j 0 := by
  rw [List.getD_eq_getElem _ _ hi, List.getD_eq_getElem _ _ hj]
  intro heq
  exact hij ((List.Nodup.getElem_inj_iff hn).mp heq)

theorem getD_lt_getD_of_sorted_nodup {l : List ℕ} (hs : l.Sorted (· ≤ ·)) (hn : l.Nodup)
    {i j : ℕ} (hij : i < j) (hj : j < l.length) : l.getD i 0 < l.getD j 0 := by
  have hi : i < l.length := lt_trans hij hj
  rw [List.getD_eq_getElem _ _ hi, List.getD_eq_getElem _ _ hj]
  have hle : l[i] ≤ l[j] := List.pairwise_iff_getElem.mp hs i j hi hj hij
  have hne : l[i] ≠ l[j] := fun heq =>
    absurd ((List.Nodup.getElem_inj_iff hn).mp heq) (Nat.ne_of_lt hij)
  exact lt_of_le_of_ne hle hne

theorem getD_range_map {β : Type} (m k : ℕ) (f : ℕ → β) (dflt : β) (hk : k < m) :
    ((List.range m).map f).getD k dflt = f k := by
  have hk' : k < ((List.range m).map f).length := by simpa using hk
  rw [List.getD_eq_getElem _ _ hk']
  simp

theorem cellAt_mk (bt : String) (pat : Option String) (m k : ℕ) (f : ℕ → ℕ → Cell)
    {r c : ℕ} (hr : r < m) (hc : c < k) :
    cellAt { btype := bt
             rows := (List.range m).map (fun r => (List.range k).map (fun c => f r c))
             pattern := pat } r c = f r c := by
  unfold cellAt
  dsimp only
  rw [getD_range_map m r _ [] hr, getD_range_map k c _ nullCell hc]

theorem rowLen_mk (bt : String) (pat : Option String) (m k : ℕ) (f : ℕ → ℕ → Cell)
    {r : ℕ} (hr : r < m) :
    (({ btype := bt
        rows := (List.range m).map (fun r => (List.range k).map (fun c => f r c))
        pattern := pat } : Board).rows.getD r []).length = k := by
  dsimp only
  rw [getD_range_map m r _ [] hr]
  simp


theorem fillSet_spec (o : ℕ → ℕ) (lo hi target : ℕ) (hlohi : lo ≤ hi) :
    ∀ (fuel i : ℕ) (acc : List ℕ) (res : List ℕ × ℕ),
      acc.Nodup → (∀ x ∈ acc, lo ≤ x ∧ x ≤ hi) → acc.length ≤ target →
      fillSet o lo hi target fuel i acc = some res →
      res.1.Nodup ∧ res.1.length = target ∧ ∀ x ∈ res.1, lo ≤ x ∧ x ≤ hi := by
  intro fuel
  induction fuel with
  | zero =>
    intro i acc res h1 h2 h3 h
    simp only [fillSet] at h
    by_cases ht : target ≤ acc.length
    · rw [if_pos ht] at h
      cases h
      exact ⟨h1, le_antisymm h3 ht, h2⟩
    · rw [if_neg ht] at h
      exact absurd h (by simp)
  | succ fuel ih =>
    intro i acc res h1 h2 h3 h
    simp only [fillSet] at h
    by_cases ht : target ≤ acc.length
    · rw [if_pos ht] at h
      cases h
      exact ⟨h1, le_antisymm h3 ht, h2⟩
    · rw [if_neg ht] at h
      refine ih (i + 1) _ res (nodup_listAdd h1) ?_ ?_ h
      · intro x hx
        rcases mem_listAdd.mp hx with hx' | rfl
        · exact h2 x hx'
        · have hm : o i % (hi - lo + 1) < hi - lo + 1 := Nat.mod_lt _ (by omega)
          omega
      · have := length_listAdd (lo + o i % (hi - lo + 1)) acc
        omega

theorem genColumns_spec (o : ℕ → ℕ) (fuel target : ℕ) :
    ∀ (ranges : List (ℕ × ℕ)) (i : ℕ) (res : List (List ℕ) × ℕ),
      (∀ r ∈ ranges, r.1 ≤ r.2) →
      genColumns o fuel target i ranges = some res →
      res.1.length = ranges.length ∧
      ∀ k, k < ranges.length →
        (res.1.getD k []).length = target ∧ (res.1.getD k []).Nodup ∧
        (res.1.getD k []).Sorted (· ≤ ·) ∧
        ∀ x ∈ res.1.getD k [],
          (ranges.getD k (0, 0)).1 ≤ x ∧ x ≤ (ranges.getD k (0, 0)).2 := by
  intro ranges
  induction ranges with
  | nil =>
    intro i res hr h
    simp only [genColumns] at h
    cases h
    exact ⟨rfl, by intro k hk; simp at hk⟩
  | cons range rest ih =>
    intro i res hr h
    obtain ⟨lo, hi⟩ := range
    simp only [genColumns] at h
    cases hfill : fillSet o lo hi target fuel i [] with
    | none => rw [hfill] at h; exact absurd h (by simp)
    | some numsI =>
      obtain ⟨nums, i'⟩ := numsI
      simp only [hfill] at h
      cases hrest : genColumns o fuel target i' rest with
      | none => rw [hrest] at h; exact absurd h (by simp)
      | some colsI =>
        obtain ⟨cols, i''⟩ := colsI
        simp only [hrest] at h
        cases h
        have hfs := fillSet_spec o lo hi target (hr (lo, hi) (by simp)) fuel i [] (nums, i')
          List.nodup_nil (by simp) (by simp) hfill
        have hih := ih i' (cols, i'') (fun r hr' => hr r (by simp [hr'])) hrest
        constructor
        · simpa using hih.1
        · intro k hk
          cases k with
          | zero =>
            simp only [List.getD_cons_zero]
            refine ⟨by rw [sortAsc_length]; exact hfs.2.1, sortAsc_nodup hfs.1,
              sortAsc_sorted _, ?_⟩
            intro x hx
            exact hfs.2.2 x (mem_sortAsc.mp hx)
          | succ k =>
            simp only [List.getD_cons_succ]
            exact hih.2 k (by simpa using hk)

/-! ## C8: the 75-ball board -/

/-- The shape C8 ascribes to a 75-ball board: a 5×5 grid whose center cell
is the pre-marked FREE sentinel; every other cell of column `c` holds an
unmarked number from the reserved sub-range `15c+1 .. 15(c+1)`, and within
a column all such numbers are pairwise distinct. -/
def Board75Spec (b : Board) : Prop :=
  b.rows.length = 5 ∧
  (∀ r, r < 5 → (b.rows.getD r []).length = 5) ∧
  (cellAt b 2 2).val = CellVal.free ∧
  (cellAt b 2 2).marked = true ∧
  (∀ r c, r < 5 → c < 5 → ¬(r = 2 ∧ c = 2) →
    (∃ n, (cellAt b r c).val = CellVal.num n ∧ 15 * c + 1 ≤ n ∧ n ≤ 15 * (c + 1)) ∧
    (cellAt b r c).marked = false) ∧
  (∀ c r1 r2, c < 5 → r1 < 5 → r2 < 5 → r1 ≠ r2 → ¬(r1 = 2 ∧ c = 2) → ¬(r2 = 2 ∧ c = 2) →
    (cellAt b r1 c).val ≠ (cellAt b r2 c).val)

/-- C8: every board produced by `generate75BallBoard` satisfies
`Board75Spec`. -/
theorem generate75BallBoard_spec (o : ℕ → ℕ) (fuel : ℕ) (b : Board)
    (h : generate75BallBoard o fuel = some b) : Board75Spec b := by
  unfold generate75BallBoard generate75BallBoardAux at h
  cases hcols : genColumns o fuel 5 0 colRanges75 with
  | none => rw [hcols] at h; exact absurd h (by simp)
  | some colsI =>
    obtain ⟨cols, i⟩ := colsI
    simp only [hcols, Option.map] at h
    injection h with h
    subst h
    have hspec := genColumns_spec o fuel 5 colRanges75 0 (cols, i) (by decide) hcols
    have hlen5 : colRanges75.length = 5 := by decide
    have hrange : ∀ c, c < 5 →
        (colRanges75.getD c (0, 0)).1 = 15 * c + 1 ∧
        (colRanges75.getD c (0, 0)).2 = 15 * (c + 1) := by decide
    have hcol := fun c (hc : c < 5) => hspec.2 c (hlen5 ▸ hc)
    have hcl : ∀ c, c < 5 → (cols.getD c []).length = 5 := fun c hc => (hcol c hc).1
    refine ⟨by simp, ?_, ?_, ?_, ?_, ?_⟩
    · intro r hr
      exact rowLen_mk "75ball" none 5 5 (fun r c => mkCell75 cols r c) hr
    · rw [cellAt_mk "75ball" none 5 5 (fun r c => mkCell75 cols r c)
        (by norm_num) (by norm_num)]
      rfl
    · rw [cellAt_mk "75ball" none 5 5 (fun r c => mkCell75 cols r c)
        (by norm_num) (by norm_num)]
      rfl
    · intro r c hr hc hnc
      rw [cellAt_mk "75ball" none 5 5 (fun r c => mkCell75 cols r c) hr hc]
      have hmem := getD_mem (l := cols.getD c []) (i := r) (by rw [hcl c hc]; exact hr)
      constructor
      · refine ⟨(cols.getD c []).getD r 0, by simp [mkCell75, hnc], ?_, ?_⟩
        · have := ((hcol c hc).2.2.2 _ hmem).1
          rwa [(hrange c hc).1] at this
        · have := ((hcol c hc).2.2.2 _ hmem).2
          rwa [(hrange c hc).2] at this
      · simp [mkCell75, hnc]
    · intro c r1 r2 hc hr1 hr2 hne hnc1 hnc2
      rw [cellAt_mk "75ball" none 5 5 (fun r c => mkCell75 cols r c) hr1 hc,
        cellAt_mk "75ball" none 5 5 (fun r c => mkCell75 cols r c) hr2 hc]
      simp only [mkCell75, if_neg hnc1, if_neg hnc2]
      intro heq
      have hn := CellVal.num.inj heq
      exact getD_ne_of_nodup (hcol c hc).2.1 hne
        (by rw [hcl c hc]; exact hr1) (by rw [hcl c hc]; exact hr2) hn

/-- The concrete 75-ball board drawn with the identity oracle. -/
def b75Id : Board := (generate75BallBoard (fun i => i) 64).getD { btype := "", rows := [] }

/-- C8 witness: the identity-oracle board satisfies the 75-ball shape. -/
theorem generate75BallBoard_spec_witness : Board75Spec b75Id :=
  generate75BallBoard_spec (fun i => i) 64 b75Id (by decide)

/-! ## C9: the 90-ball board -/

/-- The cells of column `c`, top row first. -/
def colCellsOf (b : Board) (c : ℕ) : List Cell :=
  b.rows.map (fun row => row.getD c nullCell)

/-- How many cells of column `c` hold a playable number. -/
def numCellCount (b : Board) (c : ℕ) : ℕ :=
  ((colCellsOf b c).filter (fun cl =>
    match cl.val with
    | CellVal.num _ => true
    | _ => false)).length

/-- C9 as stated, read against both cited `generate90BallBoard` generators:
every column holds exactly 3 playable numbers. -/
def claimC9Statement : Prop :=
  (∀ (o : ℕ → ℕ) (fuel : ℕ) (b : Board), generate90BallBoard o fuel = some b →
    ∀ c, c < 9 → numCellCount b c = 3) ∧
  (∀ (o : ℕ → ℕ) (fuel : ℕ) (b : Board), VariantB.generate90BallBoard o fuel = some b →
    ∀ c, c < 9 → numCellCount b c = 3)

/-- The board variant B's generator produces from the all-zero oracle: every
column draws `numCount = 0 % 3 + 1 = 1` number, so each column holds a
single playable number and two blank slots. -/
def b90BZero : Board :=
  (VariantB.generate90BallBoard (fun _ => 0) 64).getD { btype := "", rows := [] }

/-- C9 counterexample: the earlier variant's generator gives column 0 of
`b90BZero` exactly one playable number, not three. -/
theorem claimC9_counterexample : ¬claimC9Statement := by
  intro h
  have hb : VariantB.generate90BallBoard (fun _ => 0) 64 = some b90BZero := by decide
  have := h.2 (fun _ => 0) 64 b90BZero hb 0 (by norm_num)
  exact absurd this (by decide)

/-- The shape the most complete variant's `generate90BallBoard` guarantees:
a 3-row × 9-column grid where every cell of column `c` holds an unmarked
number from the decade range `10c+1 .. 10(c+1)` (no blank slots), and the
three numbers of a column appear in strictly ascending row order. -/
def Board90ASpec (b : Board) : Prop :=
  b.rows.length = 3 ∧
  (∀ r, r < 3 → (b.rows.getD r []).length = 9) ∧
  (∀ r c, r < 3 → c < 9 →
    (∃ n, (cellAt b r c).val = CellVal.num n ∧ 10 * c + 1 ≤ n ∧ n ≤ 10 * (c + 1)) ∧
    (cellAt b r c).marked = false) ∧
  (∀ c r1 r2, c < 9 → r1 < 3 → r2 < 3 → r1 < r2 → ∀ n1 n2,
    (cellAt b r1 c).val = CellVal.num n1 → (cellAt b r2 c).val = CellVal.num n2 →
    n1 < n2)

/-- C9 amended: every board produced by the most complete variant's
`generate90BallBoard` satisfies `Board90ASpec` — exactly 3 distinct decade
numbers per column, in ascending (not shuffled) row order, with no blanks. -/
theorem generate90BallBoard_spec (o : ℕ → ℕ) (fuel : ℕ) (b : Board)
    (h : generate90BallBoard o fuel = some b) : Board90ASpec b := by
  unfold generate90BallBoard at h
  cases hcols : genColumns o fuel 3 0 ranges90 with
  | none => rw [hcols] at h; exact absurd h (by simp)
  | some colsI =>
    obtain ⟨cols, i⟩ := colsI
    simp only [hcols] at h
    injection h with h
    subst h
    have hspec := genColumns_spec o fuel 3 ranges90 0 (cols, i) (by decide) hcols
    have hlen9 : ranges90.length = 9 := by decide
    have hrange : ∀ c, c < 9 →
        (ranges90.getD c (0, 0)).1 = 10 * c + 1 ∧
        (ranges90.getD c (0, 0)).2 = 10 * (c + 1) := by decide
    have hcol := fun c (hc : c < 9) => hspec.2 c (hlen9 ▸ hc)
    have hcl : ∀ c, c < 9 → (cols.getD c []).length = 3 := fun c hc => (hcol c hc).1
    refine ⟨by simp, ?_, ?_, ?_⟩
    · intro r hr
      exact rowLen_mk "90ball" none 3 9 (fun r c => mkCell90 cols r c) hr
    · intro r c hr hc
      rw [cellAt_mk "90ball" none 3 9 (fun r c => mkCell90 cols r c) hr hc]
      have hrl : r < (cols.getD c []).length := by rw [hcl c hc]; exact hr
      have hmem := getD_mem (l := cols.getD c []) (i := r) hrl
      have hmk : mkCell90 cols r c =
          { val := CellVal.num ((cols.getD c []).getD r 0), column := some (c + 1),
            marked := false, row := r, col := c } := by
        unfold mkCell90
        rw [if_pos hrl]
      constructor
      · refine ⟨(cols.getD c []).getD r 0, by rw [hmk], ?_, ?_⟩
        · have := ((hcol c hc).2.2.2 _ hmem).1
          rwa [(hrange c hc).1] at this
        · have := ((hcol c hc).2.2.2 _ hmem).2
          rwa [(hrange c hc).2] at this
      · rw [hmk]
    · intro c r1 r2 hc hr1 hr2 hlt n1 n2 h1 h2
      have hrl1 : r1 < (cols.getD c []).length := by rw [hcl c hc]; exact hr1
      have hrl2 : r2 < (cols.getD c []).length := by rw [hcl c hc]; exact hr2
      rw [cellAt_mk "90ball" none 3 9 (fun r c => mkCell90 cols r c) hr1 hc] at h1
      rw [cellAt_mk "90ball" none 3 9 (fun r c => mkCell90 cols r c) hr2 hc] at h2
      simp only [mkCell90, if_pos hrl1] at h1
      simp only [mkCell90, if_pos hrl2] at h2
      have e1 := CellVal.num.inj h1
      have e2 := CellVal.num.inj h2
      rw [← e1, ← e2]
      exact getD_lt_getD_of_sorted_nodup (hcol c hc).2.2.1 (hcol c hc).2.1 hlt hrl2

/-- The concrete variant A 90-ball board drawn with the identity oracle. -/
def b90AId : Board := (generate90BallBoard (fun i => i) 64).getD { btype := "", rows := [] }

/-- C9 amended witness: the identity-oracle board satisfies the variant A
90-ball shape. -/
theorem generate90BallBoard_spec_witness : Board90ASpec b90AId :=
  generate90BallBoard_spec (fun i => i) 64 b90AId (by decide)

end Bingo
